import Mathlib

/-
Shallow embedding of the yt-dlp web supervisor (src/app.py).

The core state of the program is three module-level variables
(src/app.py lines 17-22):
  current_proc : {"p": None, "start_ts": None, "args": None, "raw": False}
  subscribers  : set of queue.Queue
  history      : list of log lines (bounded ring)
The operations embedded below are `broadcast` (lines 26-39),
`sse_stream`'s attach phase (lines 41-50) plus its delivery loop
(lines 52-54), `spawn_process` (lines 128-151) with its `reader`
capture loop (lines 142-151), and the `/api/stop` handler (lines
181-191).  Pure Python helpers (`shlex.quote`, `str.rstrip("\n")`,
`" ".join`) are embedded character-for-character.  OS effects
(process spawn, signals, wall-clock time) are modelled as explicit
parameters and outputs: a spawn attempt is an `Option Proc`
(`none` = Popen raised), `time.time()` is a `ts` argument, and a
signal send is recorded in the returned `SentSignal` list.
-/

namespace YtDlpApp

/-- LOG_HISTORY_MAX from src/app.py line 13: lines buffered for late subscribers. -/
def LOG_HISTORY_MAX : Nat := 2000

/-- Queue capacity of one SSE subscriber, src/app.py line 42: queue.Queue(maxsize=1000). -/
def SSE_QUEUE_MAX : Nat := 1000

/-- Seed window pushed to a new subscriber, src/app.py line 45: history[-500:]. -/
def SEED_WINDOW : Nat := 500

/-- The newline character, the only character stripped by line.rstrip("\n"). -/
def nlChar : Char := Char.ofNat 10

/-- The single-quote character used by shlex.quote. -/
def sqChar : Char := Char.ofNat 39

/-- Python line.rstrip("\n") on the character list: remove all trailing newlines. -/
def rstripData (l : List Char) : List Char :=
  (l.reverse.dropWhile (fun c => c == nlChar)).reverse

/-- Python line.rstrip("\n") as used in broadcast (src/app.py line 27). -/
def rstripNewlines (s : String) : String :=
  String.mk (rstripData s.data)

/-- A character that shlex.quote's _find_unsafe regex treats as safe:
ASCII alphanumerics, underscore, and the punctuation at-sign, percent,
plus, minus, equals, colon, comma, dot, slash (the complement of Python
_find_unsafe with re.ASCII). -/
def shlexSafeChar (c : Char) : Bool :=
  c.isAlphanum || c == Char.ofNat 95 || c == Char.ofNat 64 || c == Char.ofNat 37 ||
    c == Char.ofNat 43 || c == Char.ofNat 45 || c == Char.ofNat 61 || c == Char.ofNat 58 ||
    c == Char.ofNat 44 || c == Char.ofNat 46 || c == Char.ofNat 47

/-- One character of Python s.replace(single-quote, quote-dquote-quote-dquote-quote)
inside shlex.quote. -/
def escSQ (c : Char) : List Char :=
  if c == sqChar then [sqChar, Char.ofNat 34, sqChar, Char.ofNat 34, sqChar] else [c]

/-- Python shlex.quote: empty strings become two single quotes, all-safe strings
pass through unchanged, and everything else is single-quoted with embedded
single quotes escaped. -/
def shlexQuote (s : String) : String :=
  if s.data.isEmpty then String.mk [sqChar, sqChar]
  else if s.data.all shlexSafeChar then s
  else String.mk ([sqChar] ++ (s.data.map escSQ).flatten ++ [sqChar])

/-- Python " ".join over a list of strings. -/
def joinSpace : List String → String
  | [] => ""
  | [a] => a
  | a :: b :: rest => a ++ " " ++ joinSpace (b :: rest)

/-- The synthetic announcement line broadcast by spawn_process (src/app.py line 132). -/
def startingText (args : List String) : String :=
  "# Starting: " ++ joinSpace (args.map shlexQuote)

/-- The synthetic exit line broadcast by reader (src/app.py line 148). -/
def finishedText (rc : Int) : String :=
  "# Finished with exit code " ++ toString rc

/-- One subscriber queue (queue.Queue with maxsize); `sid` models Python object
identity inside the `subscribers` set, `pending` the queued lines (front =
next to be got), `consumed` the lines the owning SSE generator has already
got and yielded. -/
structure Subscriber where
  sid : Nat
  cap : Nat
  pending : List String
  consumed : List String
deriving DecidableEq, Repr

/-- A spawned child process; `pid` models the OS pid.  preexec_fn=os.setsid
(src/app.py line 139) makes the child the leader of its own process group,
so its process-group id equals its pid. -/
structure Proc where
  pid : Nat
deriving DecidableEq, Repr

/-- The current_proc dict (src/app.py line 19). -/
structure CurrentProc where
  p : Option Proc
  start_ts : Option Nat
  args : Option (List String)
  raw : Bool
deriving DecidableEq, Repr

/-- The whole mutable module state of src/app.py: current_proc, subscribers, history. -/
structure AppState where
  current_proc : CurrentProc
  subscribers : List Subscriber
  history : List String
deriving DecidableEq, Repr

/-- Module initialisation, src/app.py lines 19-21. -/
def initState : AppState :=
  { current_proc := ⟨none, none, none, false⟩, subscribers := [], history := [] }

/-- Python l[-n:] for n > 0: the last min(length, n) elements. -/
def lastN (n : Nat) (l : List α) : List α :=
  l.drop (l.length - n)

/-- History truncation, src/app.py lines 30-31: if over LOG_HISTORY_MAX,
keep only the last LOG_HISTORY_MAX entries. -/
def truncHist (h : List String) : List String :=
  if h.length > LOG_HISTORY_MAX then lastN LOG_HISTORY_MAX h else h

/-- q.put_nowait(line): succeeds iff the queue is not full
(queue.Queue raises queue.Full otherwise). -/
def tryPut (line : String) (q : Subscriber) : Option Subscriber :=
  if q.pending.length < q.cap then some { q with pending := q.pending ++ [line] } else none

/-- The fan-out phase of broadcast (src/app.py lines 32-39): put the line into
every subscriber's queue; a subscriber whose put raises is collected as dead
and discarded from the registry. -/
def fanOut (line : String) (subs : List Subscriber) : List Subscriber :=
  subs.filterMap (tryPut line)

/-- broadcast(line), src/app.py lines 26-39: strip trailing newlines, append
to history, truncate history to LOG_HISTORY_MAX, then fan out to all
subscribers, dropping the ones whose queue is full. -/
def broadcast (line : String) (st : AppState) : AppState :=
  let l := rstripNewlines line
  { st with
    history := truncHist (st.history ++ [l])
    subscribers := fanOut l st.subscribers }

/-- A sequence of broadcast calls, first element first. -/
def broadcastAll (ls : List String) (st : AppState) : AppState :=
  ls.foldl (fun s l => broadcast l s) st

/-- The history-seeding loop of sse_stream (src/app.py lines 45-49):
put each line of the seed window with put_nowait, stopping at the first
failure (the bare `except Exception: break`). -/
def seedLoop : Subscriber → List String → Subscriber
  | q, [] => q
  | q, l :: ls =>
    if q.pending.length < q.cap then seedLoop { q with pending := q.pending ++ [l] } ls else q

/-- The attach phase of sse_stream (src/app.py lines 41-50): create a fresh
queue of capacity SSE_QUEUE_MAX, seed it with history[-500:] under the
history lock, then add it to the subscriber registry.  `sid` is the fresh
queue's identity.  Returns the updated state and the new subscriber. -/
def subscribe (sid : Nat) (st : AppState) : AppState × Subscriber :=
  let q := seedLoop ⟨sid, SSE_QUEUE_MAX, [], []⟩ (lastN SEED_WINDOW st.history)
  ({ st with subscribers := st.subscribers ++ [q] }, q)

/-- The SSE delivery loop (src/app.py lines 52-54) run until the queue is
empty: each q.get() moves the front pending line into the consumed stream. -/
def drainQueue (q : Subscriber) : Subscriber :=
  { q with consumed := q.consumed ++ q.pending, pending := [] }

/-- Every subscriber's delivery loop catches up (drains its queue). -/
def drainAllSubs (st : AppState) : AppState :=
  { st with subscribers := st.subscribers.map drainQueue }

/-- A run in which each broadcast is followed by all delivery loops catching
up, i.e. consumers that are never slow. -/
def deliverRun (ls : List String) (st : AppState) : AppState :=
  ls.foldl (fun s l => drainAllSubs (broadcast l s)) st

/-- The two ways spawn_process can raise: the explicit RuntimeError("Another
task is running") (src/app.py line 131), and subprocess.Popen itself raising
(executable not found, fork refused). -/
inductive SpawnErr where
  | alreadyRunning
  | spawnFailed
deriving DecidableEq, Repr

/-- spawn_process(args, raw), src/app.py lines 128-141 (the part executed in
the calling thread, under proc_lock).  `spawnResult` is the outcome of the
subprocess.Popen call (`none` = Popen raised); `ts` is time.time().  If a
process is already recorded, RuntimeError is raised before any side effect.
Otherwise the starting announcement is broadcast first; then, on a
successful spawn, the slot is filled.  When Popen raises, the exception
propagates with the slot untouched but the announcement already broadcast.
The reader thread it launches is modelled separately by `reader`. -/
def spawn_process (args : List String) (raw : Bool) (spawnResult : Option Proc) (ts : Nat)
    (st : AppState) : Except SpawnErr Unit × AppState :=
  if st.current_proc.p.isSome then (Except.error SpawnErr.alreadyRunning, st)
  else
    let st1 := broadcast (startingText args) st
    match spawnResult with
    | none => (Except.error SpawnErr.spawnFailed, st1)
    | some p =>
      (Except.ok (), { st1 with current_proc := ⟨some p, some ts, some args, raw⟩ })

/-- reader(), src/app.py lines 142-151: forward each line of the child's
output (rstripped) to broadcast; whether the read loop ends normally or by a
pipe error, the `finally` block runs: p.wait() yields the exit code `rc`,
the exit line is broadcast, and the slot is cleared under proc_lock.
`outLines` is the list of lines the loop managed to read before the stream
ended (normally or abnormally). -/
def reader (outLines : List String) (rc : Int) (st : AppState) : AppState :=
  let st1 := outLines.foldl (fun s line => broadcast (rstripNewlines line) s) st
  let st2 := broadcast (finishedText rc) st1
  { st2 with current_proc := ⟨none, none, none, false⟩ }

/-- The one signal the supervisor ever sends (src/app.py line 188). -/
inductive Signal where
  | SIGINT
deriving DecidableEq, Repr

/-- A recorded os.killpg call: the target process-group id and the signal. -/
structure SentSignal where
  pgid : Nat
  sig : Signal
deriving DecidableEq, Repr

/-- /api/stop, src/app.py lines 181-191: under proc_lock, if no process is
recorded return "idle"; otherwise killpg(getpgid(pid), SIGINT) — which
raises ProcessLookupError, silently swallowed, when the group is already
gone (`pgExists` = false) — and return "stopping".  Returns the JSON
status, the list of signals actually sent, and the (unchanged) state. -/
def api_stop (pgExists : Bool) (st : AppState) : String × List SentSignal × AppState :=
  match st.current_proc.p with
  | none => ("idle", [], st)
  | some p => ("stopping", if pgExists then [⟨p.pid, Signal.SIGINT⟩] else [], st)

/-- /api/status, src/app.py lines 193-199: a read-only snapshot under proc_lock. -/
def api_status (st : AppState) : Bool × Option (List String) × Option Nat :=
  (st.current_proc.p.isSome, st.current_proc.args, st.current_proc.start_ts)

/-- A finer-grained model of the registration race between `sse_stream` and
`broadcast`.  The source releases `history_lock` between seeding the new
queue (src/app.py lines 44-49) and adding it to `subscribers`
(line 50), and `broadcast` runs its fan-out (lines 32-39) outside
`history_lock` as well.  The four atomic sections `bHist`, `bFan`, `sSeed`,
`sReg` below are therefore genuine interleaving units of the two threads;
`CState.newQ` is the local variable `q` of `sse_stream` after seeding and
before registration. -/
structure CState where
  history : List String
  subscribers : List Subscriber
  newQ : Option Subscriber
deriving DecidableEq, Repr

/-- The locked history-append section of broadcast (src/app.py lines 28-31). -/
def bHist (line : String) (st : CState) : CState :=
  { st with history := truncHist (st.history ++ [rstripNewlines line]) }

/-- The unlocked fan-out section of broadcast (src/app.py lines 32-39). -/
def bFan (line : String) (st : CState) : CState :=
  { st with subscribers := fanOut (rstripNewlines line) st.subscribers }

/-- The locked seeding section of sse_stream (src/app.py lines 42-49). -/
def sSeed (sid : Nat) (st : CState) : CState :=
  { st with newQ := some (seedLoop ⟨sid, SSE_QUEUE_MAX, [], []⟩ (lastN SEED_WINDOW st.history)) }

/-- The registration step of sse_stream (src/app.py line 50). -/
def sReg (st : CState) : CState :=
  match st.newQ with
  | some q => { st with subscribers := st.subscribers ++ [q], newQ := none }
  | none => st

/-- A sample running process used by concrete instantiations below. -/
def sampleProc : Proc := ⟨7⟩

/-- A sample state with a job recorded in the slot. -/
def runningState : AppState :=
  { current_proc := ⟨some sampleProc, some 3, some ["yt-dlp", "url"], false⟩,
    subscribers := [], history := ["old"] }

/-- A sample subscriber whose queue is full (capacity 1, one line pending). -/
def fullSub : Subscriber := ⟨5, 1, ["a"], []⟩

/-- A sample idle state holding only the full subscriber. -/
def oneSubState : AppState :=
  { current_proc := ⟨none, none, none, false⟩, subscribers := [fullSub], history := [] }

/-! Helper lemmas about `lastN` and the history ring. -/

theorem length_lastN (n : Nat) (l : List α) : (lastN n l).length = min l.length n := by
  simp only [lastN, List.length_drop]
  omega

theorem lastN_of_le (n : Nat) (l : List α) (h : l.length ≤ n) : lastN n l = l := by
  simp [lastN, Nat.sub_eq_zero_of_le h]

theorem lastN_append_lastN (n : Nat) (a b : List α) :
    lastN n (lastN n a ++ b) = lastN n (a ++ b) := by
  unfold lastN
  rw [List.drop_append_eq_append_drop, List.drop_append_eq_append_drop, List.drop_drop]
  simp only [List.length_append, List.length_drop]
  congr 1
  · congr 1
    omega
  · congr 1
    omega

theorem lastN_lastN (m n : Nat) (l : List α) (h : m ≤ n) :
    lastN m (lastN n l) = lastN m l := by
  unfold lastN
  rw [List.drop_drop]
  simp only [List.length_drop]
  congr 1
  omega

theorem truncHist_eq_lastN (h : List String) : truncHist h = lastN LOG_HISTORY_MAX h := by
  unfold truncHist
  split
  · rfl
  next hle => exact (lastN_of_le _ _ (by omega)).symm

theorem broadcast_history (l : String) (st : AppState) :
    (broadcast l st).history = lastN LOG_HISTORY_MAX (st.history ++ [rstripNewlines l]) := by
  simp [broadcast, truncHist_eq_lastN]

theorem broadcast_history_le (l : String) (st : AppState) :
    (broadcast l st).history.length ≤ LOG_HISTORY_MAX := by
  rw [broadcast_history, length_lastN]
  omega

theorem broadcast_current_proc (l : String) (st : AppState) :
    (broadcast l st).current_proc = st.current_proc := rfl

theorem broadcastAll_cons (l : String) (ls : List String) (st : AppState) :
    broadcastAll (l :: ls) st = broadcastAll ls (broadcast l st) := rfl

theorem broadcastAll_history (ls : List String) (st : AppState)
    (h : st.history.length ≤ LOG_HISTORY_MAX) :
    (broadcastAll ls st).history = lastN LOG_HISTORY_MAX (st.history ++ ls.map rstripNewlines) := by
  induction ls generalizing st with
  | nil => simpa [broadcastAll] using (lastN_of_le _ _ h).symm
  | cons l ls ih =>
    calc (broadcastAll (l :: ls) st).history
        = (broadcastAll ls (broadcast l st)).history := rfl
      _ = lastN LOG_HISTORY_MAX ((broadcast l st).history ++ ls.map rstripNewlines) :=
          ih _ (broadcast_history_le l st)
      _ = lastN LOG_HISTORY_MAX
            (lastN LOG_HISTORY_MAX (st.history ++ [rstripNewlines l]) ++ ls.map rstripNewlines) := by
          rw [broadcast_history]
      _ = lastN LOG_HISTORY_MAX ((st.history ++ [rstripNewlines l]) ++ ls.map rstripNewlines) :=
          lastN_append_lastN _ _ _
      _ = lastN LOG_HISTORY_MAX (st.history ++ (l :: ls).map rstripNewlines) := by
          simp

theorem broadcastAll_subscribers_nil (ls : List String) (st : AppState)
    (h : st.subscribers = []) : (broadcastAll ls st).subscribers = [] := by
  induction ls generalizing st with
  | nil => exact h
  | cons l ls ih => exact ih _ (by simp [broadcast, fanOut, h])

theorem broadcastAll_current_proc (ls : List String) (st : AppState) :
    (broadcastAll ls st).current_proc = st.current_proc := by
  induction ls generalizing st with
  | nil => rfl
  | cons l ls ih => exact (ih (broadcast l st)).trans rfl

/-! Helper lemmas about rstrip and shell quoting. -/

theorem rstripData_append_of_ne (l : List Char) (c : Char) (h : (c == nlChar) = false) :
    rstripData (l ++ [c]) = l ++ [c] := by
  unfold rstripData
  rw [List.reverse_append]
  simp [List.dropWhile, h]

theorem rstrip_of_data_ends (s : String) (l : List Char) (c : Char)
    (hd : s.data = l ++ [c]) (hc : (c == nlChar) = false) : rstripNewlines s = s := by
  unfold rstripNewlines
  rw [hd, rstripData_append_of_ne _ _ hc, ← hd]

theorem shlexQuote_data_ends (s : String) :
    ∃ l c, (shlexQuote s).data = l ++ [c] ∧ (c == nlChar) = false := by
  unfold shlexQuote
  split
  · exact ⟨[sqChar], sqChar, rfl, by decide⟩
  split
  next hne hall =>
    have hd : s.data ≠ [] := by
      intro hnil
      simp [hnil] at hne
    refine ⟨s.data.dropLast, s.data.getLast hd, (List.dropLast_append_getLast hd).symm, ?_⟩
    have hmem : s.data.getLast hd ∈ s.data := List.getLast_mem hd
    have hsafe : shlexSafeChar (s.data.getLast hd) = true :=
      List.all_eq_true.mp hall _ hmem
    cases hcn : s.data.getLast hd == nlChar
    · rfl
    · exfalso
      have : s.data.getLast hd = nlChar := eq_of_beq hcn
      rw [this] at hsafe
      exact absurd hsafe (by decide)
  next =>
    exact ⟨[sqChar] ++ (s.data.map escSQ).flatten, sqChar, by simp, by decide⟩

theorem joinSpace_data_ends (xs : List String)
    (hxs : ∀ x ∈ xs, ∃ l c, x.data = l ++ [c] ∧ (c == nlChar) = false) (hne : xs ≠ []) :
    ∃ l c, (joinSpace xs).data = l ++ [c] ∧ (c == nlChar) = false := by
  induction xs with
  | nil => exact absurd rfl hne
  | cons a rest ih =>
    cases rest with
    | nil => simpa [joinSpace] using hxs a (by simp)
    | cons b rest2 =>
      obtain ⟨l, c, hd, hc⟩ :=
        ih (fun x hx => hxs x (List.mem_cons_of_mem a hx)) (by simp)
      refine ⟨a.data ++ " ".data ++ l, c, ?_, hc⟩
      simp [joinSpace, String.data_append, hd]

theorem rstrip_startingText (args : List String) :
    rstripNewlines (startingText args) = startingText args := by
  cases args with
  | nil => decide
  | cons a rest =>
    obtain ⟨l, c, hd, hc⟩ := joinSpace_data_ends ((a :: rest).map shlexQuote)
      (by
        intro x hx
        simp only [List.mem_map] at hx
        obtain ⟨y, _, rfl⟩ := hx
        exact shlexQuote_data_ends y)
      (by simp)
    simp only [List.map_cons] at hd
    refine rstrip_of_data_ends _ ("# Starting: ".data ++ l) c ?_ hc
    simp [startingText, String.data_append, hd]

theorem rstripData_idem (l : List Char) : rstripData (rstripData l) = rstripData l := by
  unfold rstripData
  rw [List.reverse_reverse, List.dropWhile_idempotent]

theorem rstrip_idem (s : String) : rstripNewlines (rstripNewlines s) = rstripNewlines s := by
  unfold rstripNewlines
  rw [rstripData_idem]

theorem broadcast_rstrip (l : String) (st : AppState) :
    broadcast (rstripNewlines l) st = broadcast l st := by
  unfold broadcast
  rw [rstrip_idem]

/-! Helper lemmas about subscription seeding and delivery. -/

theorem seedLoop_complete (seed : List String) (q : Subscriber)
    (h : q.pending.length + seed.length ≤ q.cap) :
    seedLoop q seed = { q with pending := q.pending ++ seed } := by
  induction seed generalizing q with
  | nil => simp [seedLoop]
  | cons l ls ih =>
    have hlt : q.pending.length < q.cap := by
      simp only [List.length_cons] at h
      omega
    rw [seedLoop, if_pos hlt, ih]
    · simp
    · simp only [List.length_append, List.length_singleton]
      simp only [List.length_cons] at h
      omega

theorem deliverRun_single (ls : List String) (st : AppState) (q : Subscriber)
    (hsub : st.subscribers = [q]) (hcap : q.cap = SSE_QUEUE_MAX)
    (hpend : q.pending.length ≤ SEED_WINDOW) :
    (deliverRun ls st).subscribers.map (fun x => x.consumed ++ x.pending)
      = [q.consumed ++ q.pending ++ ls.map rstripNewlines] := by
  induction ls generalizing st q with
  | nil => simp [deliverRun, hsub]
  | cons l ls ih =>
    have hput : q.pending.length < q.cap := by
      rw [hcap]
      unfold SEED_WINDOW at hpend
      unfold SSE_QUEUE_MAX
      omega
    have hstep : (drainAllSubs (broadcast l st)).subscribers
        = [⟨q.sid, q.cap, [], q.consumed ++ (q.pending ++ [rstripNewlines l])⟩] := by
      simp [drainAllSubs, broadcast, fanOut, hsub, tryPut, hput, drainQueue]
    have := ih (drainAllSubs (broadcast l st))
      ⟨q.sid, q.cap, [], q.consumed ++ (q.pending ++ [rstripNewlines l])⟩
      hstep hcap (by simp)
    calc (deliverRun (l :: ls) st).subscribers.map (fun x => x.consumed ++ x.pending)
        = (deliverRun ls (drainAllSubs (broadcast l st))).subscribers.map
            (fun x => x.consumed ++ x.pending) := rfl
      _ = [(q.consumed ++ (q.pending ++ [rstripNewlines l])) ++ [] ++ ls.map rstripNewlines] :=
          this
      _ = [q.consumed ++ q.pending ++ (l :: ls).map rstripNewlines] := by
          simp

theorem getLast?_lastN (n : Nat) (l : List α) (hn : 0 < n) :
    (lastN n l).getLast? = l.getLast? := by
  unfold lastN
  cases l with
  | nil => simp
  | cons a t =>
    have hne : (a :: t).drop ((a :: t).length - n) ≠ [] := by
      intro hnil
      have hlen := congrArg List.length hnil
      simp only [List.length_drop, List.length_nil, List.length_cons] at hlen
      omega
    conv_rhs => rw [← List.take_append_drop ((a :: t).length - n) (a :: t)]
    rw [List.getLast?_append_of_ne_nil _ hne]

theorem reader_fold_eq (outLines : List String) (st : AppState) :
    outLines.foldl (fun s line => broadcast (rstripNewlines line) s) st
      = broadcastAll outLines st := by
  induction outLines generalizing st with
  | nil => rfl
  | cons l ls ih =>
    calc (l :: ls).foldl (fun s line => broadcast (rstripNewlines line) s) st
        = ls.foldl (fun s line => broadcast (rstripNewlines line) s)
            (broadcast (rstripNewlines l) st) := rfl
      _ = broadcastAll ls (broadcast (rstripNewlines l) st) := ih _
      _ = broadcastAll ls (broadcast l st) := by rw [broadcast_rstrip]
      _ = broadcastAll (l :: ls) st := rfl

/-! The claims. -/

/-- Claim C1: a spawn_process call made while the job slot holds a process
fails with AlreadyRunning (RuntimeError), and the whole state — the
existing slot with its process handle, start timestamp, argv and raw flag,
the history (so no starting LogLine is broadcast), and the subscriber
registry — is returned unchanged, with no new process spawned. -/
theorem spawn_while_running_no_side_effects (args : List String) (raw : Bool)
    (spawnResult : Option Proc) (ts : Nat) (st : AppState)
    (h : st.current_proc.p.isSome) :
    spawn_process args raw spawnResult ts st = (Except.error SpawnErr.alreadyRunning, st) := by
  simp [spawn_process, h]

/-- Witness for C1: a concrete running state rejects a second start untouched. -/
theorem spawn_while_running_no_side_effects_witness :
    runningState.current_proc.p.isSome = true ∧
    spawn_process ["yt-dlp", "u"] false (some ⟨9⟩) 4 runningState
      = (Except.error SpawnErr.alreadyRunning, runningState) :=
  ⟨rfl, spawn_while_running_no_side_effects ["yt-dlp", "u"] false (some ⟨9⟩) 4 runningState rfl⟩

/-- Claim C4: /api/stop with an empty job slot returns "idle", sends no
signal, and returns the state unchanged (same slot, history and
subscriber registry); nothing is spawned. -/
theorem stop_idle_no_op (pgExists : Bool) (st : AppState)
    (h : st.current_proc.p = none) :
    api_stop pgExists st = ("idle", [], st) := by
  simp [api_stop, h]

/-- Witness for C4: stopping the freshly initialised supervisor is a no-op. -/
theorem stop_idle_no_op_witness :
    initState.current_proc.p = none ∧ api_stop true initState = ("idle", [], initState) :=
  ⟨rfl, stop_idle_no_op true initState rfl⟩

/-- Claim C5: /api/stop with a job active returns "stopping" immediately and
sends exactly one SIGINT addressed to the child's process group when the
group still exists; when the group is already gone (ProcessLookupError) it
sends nothing and still returns "stopping", never an error.  The state is
returned unchanged: stop does not wait for or reap the process. -/
theorem stop_running_signals_group (pgExists : Bool) (st : AppState) (p : Proc)
    (h : st.current_proc.p = some p) :
    api_stop pgExists st
      = ("stopping", if pgExists then [⟨p.pid, Signal.SIGINT⟩] else [], st) := by
  simp [api_stop, h]

/-- Witness for C5: stopping a concrete running job signals its group once. -/
theorem stop_running_signals_group_witness :
    runningState.current_proc.p = some sampleProc ∧
    api_stop true runningState
      = ("stopping", if true then [⟨sampleProc.pid, Signal.SIGINT⟩] else [], runningState) :=
  ⟨rfl, stop_running_signals_group true runningState sampleProc rfl⟩

/-- Claim C8: a spawn_process call with the slot empty and the spawn
succeeding returns success, broadcasts exactly one synthetic starting
LogLine — its text "# Starting: " followed by the argument vector rendered
with shlex.quote shell-safe quoting, space-joined — appending it to history
and fanning it out to the subscribers, and fills the slot with the process
handle, the start timestamp, the argv and the raw flag. -/
theorem spawn_success_announces_and_claims_slot (args : List String) (raw : Bool)
    (p : Proc) (ts : Nat) (st : AppState) (h : st.current_proc.p = none) :
    (spawn_process args raw (some p) ts st).1 = Except.ok () ∧
    (spawn_process args raw (some p) ts st).2.current_proc = ⟨some p, some ts, some args, raw⟩ ∧
    (spawn_process args raw (some p) ts st).2.history
      = truncHist (st.history ++ ["# Starting: " ++ joinSpace (args.map shlexQuote)]) ∧
    (spawn_process args raw (some p) ts st).2.subscribers
      = fanOut ("# Starting: " ++ joinSpace (args.map shlexQuote)) st.subscribers := by
  have hns : st.current_proc.p.isSome = false := by rw [h]; rfl
  have hrs := rstrip_startingText args
  unfold startingText at hrs
  simp [spawn_process, hns, broadcast, startingText, hrs]

/-- Witness for C8: starting from the initial state records the job and
broadcasts the quoted announcement. -/
theorem spawn_success_announces_and_claims_slot_witness :
    initState.current_proc.p = none ∧
    ((spawn_process ["yt-dlp", "hello world"] true (some ⟨9⟩) 4 initState).1 = Except.ok () ∧
    (spawn_process ["yt-dlp", "hello world"] true (some ⟨9⟩) 4 initState).2.current_proc
      = ⟨some ⟨9⟩, some 4, some ["yt-dlp", "hello world"], true⟩ ∧
    (spawn_process ["yt-dlp", "hello world"] true (some ⟨9⟩) 4 initState).2.history
      = truncHist (initState.history
          ++ ["# Starting: " ++ joinSpace (["yt-dlp", "hello world"].map shlexQuote)]) ∧
    (spawn_process ["yt-dlp", "hello world"] true (some ⟨9⟩) 4 initState).2.subscribers
      = fanOut ("# Starting: " ++ joinSpace (["yt-dlp", "hello world"].map shlexQuote))
          initState.subscribers) :=
  ⟨rfl, spawn_success_announces_and_claims_slot ["yt-dlp", "hello world"] true ⟨9⟩ 4 initState rfl⟩

/-- Claim C10: a spawn_process call with the slot empty whose Popen raises
(executable not found) propagates the error with the slot still Idle
(current_proc unchanged), yet the synthetic "# Starting: ..." announcement
has already been broadcast and retained: the history has grown by exactly
that one line, which is its last entry, with no matching exit-code line
after it. -/
theorem spawn_failure_leaves_announcement (args : List String) (raw : Bool)
    (ts : Nat) (st : AppState) (h : st.current_proc.p = none) :
    (spawn_process args raw none ts st).1 = Except.error SpawnErr.spawnFailed ∧
    (spawn_process args raw none ts st).2.current_proc = st.current_proc ∧
    (spawn_process args raw none ts st).2.history
      = truncHist (st.history ++ ["# Starting: " ++ joinSpace (args.map shlexQuote)]) ∧
    (spawn_process args raw none ts st).2.history.getLast?
      = some ("# Starting: " ++ joinSpace (args.map shlexQuote)) := by
  have hns : st.current_proc.p.isSome = false := by rw [h]; rfl
  have hrs := rstrip_startingText args
  unfold startingText at hrs
  refine ⟨by simp [spawn_process, hns], by simp [spawn_process, hns, broadcast], ?_, ?_⟩
  · simp [spawn_process, hns, broadcast, startingText, hrs]
  · have hh : (spawn_process args raw none ts st).2.history
        = truncHist (st.history ++ ["# Starting: " ++ joinSpace (args.map shlexQuote)]) := by
      simp [spawn_process, hns, broadcast, startingText, hrs]
    rw [hh, truncHist_eq_lastN, getLast?_lastN _ _ (by decide),
      List.getLast?_append_of_ne_nil _ (by simp)]
    rfl

/-- Witness for C10: a failed spawn from the initial state leaves the slot
idle and exactly the announcement line in history. -/
theorem spawn_failure_leaves_announcement_witness :
    initState.current_proc.p = none ∧
    ((spawn_process ["no-such-bin"] false none 4 initState).1
        = Except.error SpawnErr.spawnFailed ∧
    (spawn_process ["no-such-bin"] false none 4 initState).2.current_proc
      = initState.current_proc ∧
    (spawn_process ["no-such-bin"] false none 4 initState).2.history
      = truncHist (initState.history
          ++ ["# Starting: " ++ joinSpace (["no-such-bin"].map shlexQuote)]) ∧
    (spawn_process ["no-such-bin"] false none 4 initState).2.history.getLast?
      = some ("# Starting: " ++ joinSpace (["no-such-bin"].map shlexQuote))) :=
  ⟨rfl, spawn_failure_leaves_announcement ["no-such-bin"] false 4 initState rfl⟩

/-- Claim C2: every broadcast call leaves at most LOG_HISTORY_MAX = 2000
entries in history, and a sequence of at least 2000 appends starting from
the initial state leaves exactly the last 2000 appended lines (as
normalised LogLines, trailing newlines stripped) in append order — the
history then holding exactly 2000 entries, oldest evicted first. -/
theorem history_ring_bound_and_contents (l : String) (s : AppState)
    (ls : List String) (hk : LOG_HISTORY_MAX ≤ ls.length) :
    (broadcast l s).history.length ≤ LOG_HISTORY_MAX ∧
    (broadcastAll ls initState).history
      = (ls.map rstripNewlines).drop (ls.length - LOG_HISTORY_MAX) ∧
    (broadcastAll ls initState).history.length = LOG_HISTORY_MAX := by
  have hmain : (broadcastAll ls initState).history
      = (ls.map rstripNewlines).drop (ls.length - LOG_HISTORY_MAX) := by
    rw [broadcastAll_history ls initState (by simp [initState])]
    simp [initState, lastN]
  refine ⟨broadcast_history_le l s, hmain, ?_⟩
  rw [hmain]
  simp only [List.length_drop, List.length_map]
  omega

/-- Witness for C2: 2001 appends keep exactly the last 2000. -/
theorem history_ring_bound_and_contents_witness :
    LOG_HISTORY_MAX ≤ (List.replicate 2001 "a").length ∧
    ((broadcast "x" initState).history.length ≤ LOG_HISTORY_MAX ∧
    (broadcastAll (List.replicate 2001 "a") initState).history
      = ((List.replicate 2001 "a").map rstripNewlines).drop
          ((List.replicate 2001 "a").length - LOG_HISTORY_MAX) ∧
    (broadcastAll (List.replicate 2001 "a") initState).history.length = LOG_HISTORY_MAX) :=
  ⟨by norm_num [LOG_HISTORY_MAX],
    history_ring_bound_and_contents "x" initState (List.replicate 2001 "a")
      (by norm_num [LOG_HISTORY_MAX])⟩

/-- Claim C6: broadcast never raises to its caller and never blocks (it is a
total function of the state); the line is appended to history regardless of
subscriber failures; every subscriber whose queue has room receives the
line, while a subscriber whose put_nowait fails (queue full) is removed
from the registry.  Subscriber identities (`sid`, modelling Python object
identity in the `subscribers` set) are assumed distinct. -/
theorem broadcast_drop_and_unsubscribe (l : String) (st : AppState) (q : Subscriber)
    (hq : q ∈ st.subscribers) (hnd : (st.subscribers.map Subscriber.sid).Nodup) :
    (broadcast l st).history = truncHist (st.history ++ [rstripNewlines l]) ∧
    (if q.pending.length < q.cap
     then { q with pending := q.pending ++ [rstripNewlines l] } ∈ (broadcast l st).subscribers
     else ∀ q2 ∈ (broadcast l st).subscribers, q2.sid ≠ q.sid) := by
  have hsubs : (broadcast l st).subscribers
      = st.subscribers.filterMap (tryPut (rstripNewlines l)) := rfl
  refine ⟨rfl, ?_⟩
  split
  next hlt =>
    have hput : tryPut (rstripNewlines l) q
        = some { q with pending := q.pending ++ [rstripNewlines l] } := by
      simp [tryPut, hlt]
    rw [hsubs]
    exact List.mem_filterMap.mpr ⟨q, hq, hput⟩
  next hge =>
    intro q2 hq2 heq
    rw [hsubs] at hq2
    obtain ⟨q0, hq0, hput⟩ := List.mem_filterMap.mp hq2
    have hsid : q0.sid = q2.sid := by
      unfold tryPut at hput
      split at hput
      · cases hput
        rfl
      · cases hput
    have hq0q : q0 = q :=
      List.inj_on_of_nodup_map hnd hq0 hq (by rw [hsid, heq])
    rw [hq0q] at hput
    unfold tryPut at hput
    rw [if_neg hge] at hput
    cases hput

/-- Witness for C6: a concrete full subscriber is dropped while the line
still reaches history. -/
theorem broadcast_drop_and_unsubscribe_witness :
    fullSub ∈ oneSubState.subscribers ∧
    (oneSubState.subscribers.map Subscriber.sid).Nodup ∧
    ((broadcast "x" oneSubState).history
        = truncHist (oneSubState.history ++ [rstripNewlines "x"]) ∧
    (if fullSub.pending.length < fullSub.cap
     then { fullSub with pending := fullSub.pending ++ [rstripNewlines "x"] }
        ∈ (broadcast "x" oneSubState).subscribers
     else ∀ q2 ∈ (broadcast "x" oneSubState).subscribers, q2.sid ≠ fullSub.sid)) :=
  ⟨by decide, by decide,
    broadcast_drop_and_unsubscribe "x" oneSubState fullSub (by decide) (by decide)⟩

/-- Claim C7: a subscription created sequentially after the lines `ls1` have
been appended is immediately seeded with the last min(|ls1|, 500) history
entries — i.e. the most recent min(|ls1|, 500) appended LogLines, oldest
first, no gaps, no duplicates — and a prompt consumer then receives exactly
that seed followed by every subsequently appended line in append order. -/
theorem subscription_seed_then_in_order (ls1 ls2 : List String) :
    (subscribe 0 (broadcastAll ls1 initState)).2.pending
      = lastN SEED_WINDOW (ls1.map rstripNewlines) ∧
    (subscribe 0 (broadcastAll ls1 initState)).2.pending.length
      = min ls1.length SEED_WINDOW ∧
    (deliverRun ls2 (subscribe 0 (broadcastAll ls1 initState)).1).subscribers.map
        (fun x => x.consumed ++ x.pending)
      = [lastN SEED_WINDOW (ls1.map rstripNewlines) ++ ls2.map rstripNewlines] := by
  have hh : (broadcastAll ls1 initState).history
      = lastN LOG_HISTORY_MAX (ls1.map rstripNewlines) := by
    rw [broadcastAll_history ls1 initState (by simp [initState])]
    simp [initState]
  have hwin : lastN SEED_WINDOW ((broadcastAll ls1 initState).history)
      = lastN SEED_WINDOW (ls1.map rstripNewlines) := by
    rw [hh]
    exact lastN_lastN _ _ _ (by decide)
  have hseedlen : (lastN SEED_WINDOW ((broadcastAll ls1 initState).history)).length
      ≤ SEED_WINDOW := by
    rw [length_lastN]
    omega
  have hq2 : seedLoop ⟨0, SSE_QUEUE_MAX, [], []⟩
      (lastN SEED_WINDOW ((broadcastAll ls1 initState).history))
      = ⟨0, SSE_QUEUE_MAX, lastN SEED_WINDOW (ls1.map rstripNewlines), []⟩ := by
    rw [seedLoop_complete _ _ (by
      simp only [List.length_nil, Nat.zero_add]
      exact le_trans hseedlen (by norm_num [SEED_WINDOW, SSE_QUEUE_MAX]))]
    simp [hwin]
  have hq : (subscribe 0 (broadcastAll ls1 initState)).2
      = ⟨0, SSE_QUEUE_MAX, lastN SEED_WINDOW (ls1.map rstripNewlines), []⟩ := by
    simp only [subscribe]
    exact hq2
  refine ⟨by rw [hq], ?_, ?_⟩
  · rw [hq]
    simp only [length_lastN, List.length_map]
  · have hsubs : (subscribe 0 (broadcastAll ls1 initState)).1.subscribers
        = [⟨0, SSE_QUEUE_MAX, lastN SEED_WINDOW (ls1.map rstripNewlines), []⟩] := by
      simp only [subscribe]
      rw [broadcastAll_subscribers_nil ls1 initState (by simp [initState]), hq2]
      rfl
    rw [deliverRun_single ls2 _ _ hsubs rfl (by rw [length_lastN, List.length_map]; omega)]
    simp

/-- Claim C9: however the read loop of the capture thread ends — `outLines`
being whatever lines it managed to forward before end-of-stream or a pipe
error — the finally block reaps the process (exit code `rc` from p.wait()),
broadcasts exactly one synthetic exit line, and clears the slot back to
Idle; and this is the only Running-to-Idle transition: broadcast,
subscribe and api_stop always leave the slot untouched, and spawn_process
leaves a running slot untouched. -/
theorem reader_reaps_and_clears_slot (outLines : List String) (rc : Int) (st : AppState)
    (l : String) (s1 : AppState) (i : Nat) (s2 : AppState) (pg : Bool) (s3 : AppState)
    (args : List String) (rawFlag : Bool) (sr : Option Proc) (ts : Nat) (s4 : AppState)
    (h4 : s4.current_proc.p.isSome) :
    (reader outLines rc st).current_proc = ⟨none, none, none, false⟩ ∧
    (reader outLines rc st).history
      = truncHist ((broadcastAll outLines st).history
          ++ [rstripNewlines (finishedText rc)]) ∧
    (broadcast l s1).current_proc = s1.current_proc ∧
    (subscribe i s2).1.current_proc = s2.current_proc ∧
    (api_stop pg s3).2.2.current_proc = s3.current_proc ∧
    (spawn_process args rawFlag sr ts s4).2.current_proc = s4.current_proc := by
  refine ⟨rfl, ?_, rfl, rfl, ?_, ?_⟩
  · show (broadcast (finishedText rc)
        (outLines.foldl (fun s line => broadcast (rstripNewlines line) s) st)).history = _
    rw [reader_fold_eq]
    rfl
  · unfold api_stop
    cases s3.current_proc.p <;> rfl
  · simp [spawn_process, h4]

/-- Witness for C9: a concrete run of the capture loop over two lines. -/
theorem reader_reaps_and_clears_slot_witness :
    runningState.current_proc.p.isSome = true ∧
    ((reader ["a\n", "b"] 0 runningState).current_proc = ⟨none, none, none, false⟩ ∧
    (reader ["a\n", "b"] 0 runningState).history
      = truncHist ((broadcastAll ["a\n", "b"] runningState).history
          ++ [rstripNewlines (finishedText 0)]) ∧
    (broadcast "x" initState).current_proc = initState.current_proc ∧
    (subscribe 1 initState).1.current_proc = initState.current_proc ∧
    (api_stop true initState).2.2.current_proc = initState.current_proc ∧
    (spawn_process ["y"] false none 2 runningState).2.current_proc
      = runningState.current_proc) :=
  ⟨rfl, reader_reaps_and_clears_slot ["a\n", "b"] 0 runningState "x" initState 1 initState
    true initState ["y"] false none 2 runningState rfl⟩

/-- Claim C3 fails on the code: in the interleaving where the subscriber
seeds from history under the lock (sSeed), then a broadcast appends "L1" to
history (bHist) and fans out to the registry (bFan), and only then the
subscriber registers (sReg) — an interleaving the source permits because
registration happens after the seeding lock is released and fan-out reads
the registry without that lock — the line "L1" was appended after the seed
snapshot and before registration completed, yet the registered subscriber's
queue holds nothing: the line is neither in its seed nor delivered to it,
refuting exactly-once reception. -/
theorem registration_race_loses_line :
    (sReg (bFan "L1" (bHist "L1" (sSeed 0 ⟨[], [], none⟩)))).history = ["L1"] ∧
    (sReg (bFan "L1" (bHist "L1" (sSeed 0 ⟨[], [], none⟩)))).subscribers
      = [⟨0, SSE_QUEUE_MAX, [], []⟩] := by
  decide

end YtDlpApp
